import Mathlib

/-
  Verification of the NFS-like file server (Go sources under pkg/).

  The development shallow-embeds the server-side request pipeline:
  the path jailer (local_fs.go resolvePath), the handle codec
  (pkg/fs/handle.go), the inode index / handle engine
  (PathToFileHandle / FileHandleToPath), the attribute adapter
  (convertFileInfo), and the dispatcher-level Read / Write / ReadDir
  handlers (pkg/server/server.go) with their idempotency cache,
  write verifier, cookie verifier and root-squash logic.

  Paths are embedded as `List Char` (Go strings restricted to the
  slash-separated Unix form the code manipulates); byte slices as
  `List Nat` with elements below 256; machine integers as `Nat`
  with explicit `% 2 ^ w` where Go overflow semantics matter.
-/

namespace NfsSpec

/-! ### Errors (pkg/fs/errors.go) and protocol statuses (api) -/

/-- The sentinel errors of pkg/fs/errors.go that the embedded code paths
can produce. -/
inductive FsError where
  | notExist
  | exist
  | permission
  | ioError
  | isDir
  | notDir
  | notEmpty
  | invalidName
  | invalidHandle
  | noSpace
  | readOnly
  | badCookie
  | stale
  | notSupported
  deriving DecidableEq, Repr

/-- Protocol status codes (api.Status) reachable in the embedded handlers. -/
inductive Status where
  | OK
  | ERR_PERM
  | ERR_NOENT
  | ERR_IOERR
  | ERR_ACCES
  | ERR_EXIST
  | ERR_NOTDIR
  | ERR_ISDIR
  | ERR_INVAL
  | ERR_FBIG
  | ERR_NOSPC
  | ERR_ROFS
  | ERR_NOTEMPTY
  | ERR_STALE
  | ERR_BADHANDLE
  | ERR_BAD_COOKIE
  | ERR_NOTSUPP
  deriving DecidableEq, Repr

/-- nfs.MapErrorToStatus (pkg/nfs/errors.go): sentinel error to status. -/
def MapErrorToStatus : FsError → Status
  | .notExist => .ERR_NOENT
  | .exist => .ERR_EXIST
  | .permission => .ERR_ACCES
  | .ioError => .ERR_IOERR
  | .isDir => .ERR_ISDIR
  | .notDir => .ERR_NOTDIR
  | .notEmpty => .ERR_NOTEMPTY
  | .invalidName => .ERR_INVAL
  | .invalidHandle => .ERR_BADHANDLE
  | .noSpace => .ERR_NOSPC
  | .readOnly => .ERR_ROFS
  | .badCookie => .ERR_BAD_COOKIE
  | .stale => .ERR_STALE
  | .notSupported => .ERR_NOTSUPP

/-! ### Path jailer (local_fs.go resolvePath)

Go's `path/filepath` on Unix: `filepath.Clean` collapses `.`, `..` and
redundant separators purely lexically; `filepath.Join` concatenates the
non-empty elements with `/` and cleans the result;
`strings.HasPrefix`/`strings.TrimPrefix` are plain string-prefix
operations.  We embed these over `List Char`. -/

/-- A path, as the character list of a Go string. -/
abbrev Path := List Char

/-- Split a character list on `/` (strings.Split with separator slash).
Splitting the empty list yields one empty component, as in Go. -/
def splitSlash : Path → List Path
  | [] => [[]]
  | c :: rest =>
    if c = '/' then [] :: splitSlash rest
    else match splitSlash rest with
      | [] => [[c]]
      | p :: ps => (c :: p) :: ps

/-- The element-processing loop of filepath.Clean: push normal
components, skip empty and `.` components, let `..` pop (or accumulate
at the front of a relative path; a rooted path never pops past root). -/
def cleanLoop (rooted : Bool) : List Path → List Path → List Path
  | stack, [] => stack.reverse
  | stack, c :: rest =>
    if c = [] ∨ c = ['.'] then cleanLoop rooted stack rest
    else if c = ['.', '.'] then
      match stack with
      | [] => if rooted then cleanLoop rooted [] rest
              else cleanLoop rooted [['.', '.']] rest
      | top :: stack' =>
        if top = ['.', '.'] then cleanLoop rooted (c :: top :: stack') rest
        else cleanLoop rooted stack' rest
    else cleanLoop rooted (c :: stack) rest

/-- filepath.Clean on a slash-separated Unix path. -/
def filepathClean (p : Path) : Path :=
  let rooted := match p with
    | '/' :: _ => true
    | _ => false
  let comps := cleanLoop rooted [] (splitSlash p)
  let joined := List.intercalate ['/'] comps
  if rooted then '/' :: joined
  else if joined = [] then ['.'] else joined

/-- filepath.Join of two elements: join the non-empty ones with `/` and
clean the result. -/
def filepathJoin (a b : Path) : Path :=
  if a = [] ∧ b = [] then []
  else if a = [] then filepathClean b
  else if b = [] then filepathClean a
  else filepathClean (a ++ ['/'] ++ b)

/-- strings.TrimPrefix(path, slash): drop one leading `/` if present. -/
def trimLeadingSlash : Path → Path
  | '/' :: rest => rest
  | p => p

/-- local_fs.go resolvePath: trim the leading slash, clean, join onto the
root, and accept iff the result has the root as a string prefix. -/
def resolvePath (rootPath : Path) (path : Path) : Except FsError Path :=
  let path := trimLeadingSlash path
  let cleanPath := filepathClean path
  let fullPath := filepathJoin rootPath cleanPath
  if rootPath.isPrefixOf fullPath then Except.ok fullPath
  else Except.error FsError.invalidName

/-- Modelled from the spec: "Confirm the result still begins with `R`
followed by a separator or end-of-string."  The containment check the
specification demands of the jailer, for comparison with the
string-prefix check `resolvePath` actually performs. -/
def specUnderRoot (rootPath : Path) (q : Path) : Bool :=
  q == rootPath || (rootPath ++ ['/']).isPrefixOf q

/-! ### Handle codec (pkg/fs/handle.go)

A 16-byte big-endian triple `(fs_id : u32, inode : u64, generation : u32)`.
Byte slices are `List Nat` with entries below 256. -/

/-- The structured file handle of pkg/fs/handle.go. -/
structure FileHandle where
  fileSystemID : Nat
  inode : Nat
  generation : Nat
  deriving DecidableEq, Repr

/-- binary.BigEndian.PutUint32: four big-endian bytes of a 32-bit value. -/
def putUint32 (n : Nat) : List Nat :=
  [n / 2 ^ 24 % 256, n / 2 ^ 16 % 256, n / 2 ^ 8 % 256, n % 256]

/-- binary.BigEndian.PutUint64: eight big-endian bytes of a 64-bit value. -/
def putUint64 (n : Nat) : List Nat :=
  [n / 2 ^ 56 % 256, n / 2 ^ 48 % 256, n / 2 ^ 40 % 256, n / 2 ^ 32 % 256,
   n / 2 ^ 24 % 256, n / 2 ^ 16 % 256, n / 2 ^ 8 % 256, n % 256]

/-- binary.BigEndian.Uint32 over a 4-byte slice. -/
def beUint32 (bs : List Nat) : Nat :=
  bs.foldl (fun acc b => acc * 256 + b % 256) 0

/-- binary.BigEndian.Uint64 over an 8-byte slice. -/
def beUint64 (bs : List Nat) : Nat :=
  bs.foldl (fun acc b => acc * 256 + b % 256) 0

/-- FileHandle.Serialize: fs_id at bytes 0-3, inode at 4-11,
generation at 12-15. -/
def FileHandle.Serialize (fh : FileHandle) : List Nat :=
  putUint32 fh.fileSystemID ++ putUint64 fh.inode ++ putUint32 fh.generation

/-- DeserializeFileHandle: reject slices shorter than 16 bytes, otherwise
parse the three big-endian fields from the first 16 bytes. -/
def DeserializeFileHandle (data : List Nat) : Option FileHandle :=
  if data.length < 16 then none
  else some
    { fileSystemID := beUint32 (data.take 4)
      inode := beUint64 ((data.drop 4).take 8)
      generation := beUint32 ((data.drop 12).take 4) }

/-! ### Inode index and handle engine (local_fs.go)

`LocalFileSystem` keeps `rootPath`, `fsID` and the two concurrent maps
`inodeMap : inode → path` and `generationMap : inode → generation`,
embedded as association lists where a store conses a fresh entry (the
most recent binding wins, as in sync.Map.Store).  The host filesystem —
the OS behind os.Stat and filepath.Walk — is an explicit `Host`
parameter: `statIno` maps a resolved absolute path to the inode os.Stat
reports (none = the stat fails), and `walkOrder` lists the absolute
paths under the root in the depth-first order filepath.Walk visits them,
each with its inode. -/

/-- The mutable part of a LocalFileSystem (the two sync.Maps), plus the
immutable rootPath and fsID. -/
structure LocalState where
  rootPath : Path
  fsID : Nat
  inodeMap : List (Nat × Path)
  generationMap : List (Nat × Nat)
  deriving Repr

/-- The host filesystem as seen through the OS calls the handle engine
makes. -/
structure Host where
  statIno : Path → Option Nat
  walkOrder : List (Path × Nat)

/-- generateFsID: the 31-based rolling hash of the absolute root path,
in uint32 arithmetic. -/
def generateFsID (path : Path) : Nat :=
  path.foldl (fun h c => (h * 31 + c.toNat) % 2 ^ 32) 0

/-- getInode: resolve the path under the jail, then stat it. -/
def getInode (host : Host) (st : LocalState) (path : Path) :
    Except FsError Nat :=
  match resolvePath st.rootPath path with
  | .error e => .error e
  | .ok fullPath =>
    match host.statIno fullPath with
    | none => .error .notExist
    | some ino => .ok ino

/-- getGeneration: return the stored generation for the inode, creating
generation 1 on first sight. -/
def getGeneration (st : LocalState) (inode : Nat) : Nat × LocalState :=
  match st.generationMap.lookup inode with
  | some gen => (gen, st)
  | none => (1, { st with generationMap := (inode, 1) :: st.generationMap })

/-- updateInodeMap: store inode → path. -/
def updateInodeMap (st : LocalState) (path : Path) (inode : Nat) :
    LocalState :=
  { st with inodeMap := (inode, path) :: st.inodeMap }

/-- lookupPathByInode: load from the inode map. -/
def lookupPathByInode (st : LocalState) (inode : Nat) : Option Path :=
  st.inodeMap.lookup inode

/-- filepath.Rel(root, path) followed by the `"."` → `"/"` / prepend-`/`
normalisation of findPathByInode, for a walk result `path` under `root`. -/
def relFromRoot (root : Path) (p : Path) : Path :=
  if p = root then ['/'] else '/' :: p.drop (root.length + 1)

/-- findPathByInode: depth-first walk of the export root stopping at the
first entry whose inode matches, returning its wire path. -/
def findPathByInode (host : Host) (st : LocalState) (targetInode : Nat) :
    Option Path :=
  match host.walkOrder.find? (fun e => e.2 == targetInode) with
  | none => none
  | some e => some (relFromRoot st.rootPath e.1)

/-- PathToFileHandle: stat the path for its inode, get-or-create the
generation, record inode → path, and serialise the triple. -/
def PathToFileHandle (host : Host) (st : LocalState) (path : Path) :
    Except FsError (List Nat) × LocalState :=
  match getInode host st path with
  | .error e => (.error e, st)
  | .ok inode =>
    let (generation, st1) := getGeneration st inode
    let st2 := updateInodeMap st1 path inode
    (.ok (FileHandle.Serialize
      { fileSystemID := st.fsID, inode := inode, generation := generation }),
     st2)

/-- FileHandleToPath: parse the handle, compare fs_id, consult the inode
map, and fall back to the dynamic walk (recording its result) before
declaring the handle stale. -/
def FileHandleToPath (host : Host) (st : LocalState) (fh : List Nat) :
    Except FsError Path × LocalState :=
  match DeserializeFileHandle fh with
  | none => (.error .invalidHandle, st)
  | some handle =>
    if handle.fileSystemID ≠ st.fsID then (.error .stale, st)
    else
      match lookupPathByInode st handle.inode with
      | some path => (.ok path, st)
      | none =>
        match findPathByInode host st handle.inode with
        | none => (.error .stale, st)
        | some path => (.ok path, updateInodeMap st path handle.inode)

/-! ### Attribute adapter (local_fs.go convertFileInfo)

The host stat buffer carries everything syscall.Stat_t / os.FileInfo
expose — including the host's own access and change times, which
convertFileInfo never reads. -/

/-- File types of pkg/fs (FileTypeRegular etc.). -/
inductive FileType where
  | regular
  | directory
  | symlink
  | block
  | char
  | fifo
  | socket
  deriving DecidableEq, Repr

/-- A host stat buffer: the os.FileInfo mode decomposed into its type
flags and permission bits, plus the syscall.Stat_t fields the adapter
reads.  Times are opaque instants (`Nat`). -/
structure HostStat where
  isDir : Bool
  isSymlink : Bool
  isDevice : Bool
  isCharDevice : Bool
  isNamedPipe : Bool
  isSocket : Bool
  setuid : Bool
  setgid : Bool
  sticky : Bool
  perm : Nat
  size : Nat
  uid : Nat
  gid : Nat
  nlink : Nat
  rdev : Nat
  ino : Nat
  modTime : Nat
  accessTimeHost : Nat
  changeTimeHost : Nat
  deriving DecidableEq, Repr

/-- `fs.ModeSetUID`, `fs.ModeSetGID`, `fs.ModeSticky` over the 12-bit
protocol mode. -/
def ModeSetUID : Nat := 0o4000
def ModeSetGID : Nat := 0o2000
def ModeSticky : Nat := 0o1000

/-- The canonical attribute record fs.FileInfo. -/
structure FileInfo where
  ftype : FileType
  mode : Nat
  size : Nat
  uid : Nat
  gid : Nat
  nlink : Nat
  rdev : Nat
  blockSize : Nat
  blocks : Nat
  modifyTime : Nat
  accessTime : Nat
  changeTime : Nat
  deriving DecidableEq, Repr

/-- convertFileInfo: translate a host stat buffer to fs.FileInfo.  The
file type comes from the mode flag chain; the permission bits gain the
setuid/setgid/sticky bits; BlockSize is the constant 512 and Blocks is
`(size + 511) / 512`; all three protocol times are the host ModTime. -/
def convertFileInfo (hs : HostStat) : FileInfo :=
  let fileType :=
    if hs.isDir then FileType.directory
    else if hs.isSymlink then FileType.symlink
    else if hs.isDevice then
      (if hs.isCharDevice then FileType.char else FileType.block)
    else if hs.isNamedPipe then FileType.fifo
    else if hs.isSocket then FileType.socket
    else FileType.regular
  let fsMode := hs.perm % 512
  let fsMode := if hs.setuid then fsMode + ModeSetUID else fsMode
  let fsMode := if hs.setgid then fsMode + ModeSetGID else fsMode
  let fsMode := if hs.sticky then fsMode + ModeSticky else fsMode
  { ftype := fileType
    mode := fsMode
    size := hs.size
    uid := hs.uid
    gid := hs.gid
    nlink := hs.nlink
    rdev := hs.rdev
    blockSize := 512
    blocks := (hs.size + 511) / 512
    modifyTime := hs.modTime
    accessTime := hs.modTime
    changeTime := hs.modTime }

/-! ### Data path of the local filesystem (local_fs.go Read / Write)

The content of a regular file is a byte list; the offset arithmetic of
`Read` (clamp to the remaining bytes) and `Write` (seek past EOF zero
fills) is embedded exactly. -/

/-- local_fs.go Read on a regular file of the given content: empty+EOF
past the end, otherwise read the clamped length from the offset;
`eof` iff the position after the read is at or past the size. -/
def localRead (content : List Nat) (offset : Nat) (length : Nat) :
    List Nat × Bool :=
  let fileSize := content.length
  if offset ≥ fileSize then ([], true)
  else
    let bytesToRead := if offset + length > fileSize
      then fileSize - offset else length
    let buffer := (content.drop offset).take bytesToRead
    let eof := offset + buffer.length ≥ fileSize
    (buffer, eof)

/-- local_fs.go Write at an offset: overwrite in place, zero-fill any
gap between the old end and the offset, return the bytes written. -/
def localWrite (content : List Nat) (offset : Nat) (data : List Nat) :
    List Nat × Nat :=
  let padded := content.take offset ++
    List.replicate (offset - content.length) 0
  (padded ++ data ++ content.drop (offset + data.length), data.length)

/-! ### Credentials, root squash and the access check -/

/-- fs.Credentials. -/
structure Credentials where
  uid : Nat
  gid : Nat
  groups : List Nat
  deriving DecidableEq, Repr

/-- Server configuration fields used by the embedded handlers. -/
structure Config where
  maxReadSize : Nat
  maxWriteSize : Nat
  enableRootSquash : Bool
  anonUid : Nat
  anonGid : Nat
  deriving Repr

/-- The root-squash block each handler runs after decoding credentials
and before its access check (server.go, e.g. GetAttr lines 214-217 and
Write lines 459-462): with squashing on and uid 0, uid and gid become
the anonymous identity; nothing touches the supplementary groups. -/
def applyRootSquash (cfg : Config) (creds : Credentials) : Credentials :=
  if cfg.enableRootSquash ∧ creds.uid = 0 then
    { creds with uid := cfg.anonUid, gid := cfg.anonGid }
  else creds

/-- containsGroup (local_fs.go). -/
def containsGroup (groups : List Nat) (gid : Nat) : Bool :=
  groups.any (fun g => g == gid)

/-- local_fs.go Access, after the stat: pick owner, group or other
permission bits by the credential classification and require every
requested rwx bit. -/
def accessCheck (fileUid fileGid fileMode : Nat) (mode : Nat)
    (creds : Credentials) : Except FsError Unit :=
  let requiredPerm := mode % 8
  let fileMode := fileMode % 512
  let checkPerm :=
    if fileUid = creds.uid then fileMode / 64 % 8
    else if fileGid = creds.gid ∨ containsGroup creds.groups fileGid then
      fileMode / 8 % 8
    else fileMode % 8
  if requiredPerm &&& checkPerm ≠ requiredPerm then
    .error .permission
  else .ok ()

/-- The credential-mapping-then-access-check prefix of the GetAttr
handler (server.go lines 211-220): the access check always receives the
squashed credentials. -/
def getAttrAccessStage (cfg : Config) (creds : Credentials)
    (fileUid fileGid fileMode : Nat) : Except FsError Unit :=
  accessCheck fileUid fileGid fileMode 4 (applyRootSquash cfg creds)

/-! ### Server Read handler (server.go Read, lines 400-410)

After handle validation, path resolution, root squash, access check and
the regular-file check, the handler clamps the requested count to
MaxReadSize and delegates to the filesystem Read.  The embedding covers
this data path for a resolvable regular file. -/

/-- server.go Read: clamp `count` to the configured MaxReadSize, then
read. -/
def serverRead (cfg : Config) (content : List Nat) (offset : Nat)
    (count : Nat) : List Nat × Bool :=
  let count := if count > cfg.maxReadSize then cfg.maxReadSize else count
  localRead content offset count

/-! ### Server Write handler and the idempotency cache (server.go)

The write cache key is `fmt.Sprintf("write-%s-%d-%d", handle, offset,
crc32.ChecksumIEEE(data))`; it is embedded as the triple itself (the
format is injective: the last two fields are digit runs, so the string
determines the triple).  The cache is an association list where a
store conses the fresh entry; time.AfterFunc eviction is an event that
does not occur between back-to-back calls within the TTL.  The clock
reading `time.Now().UnixNano()` is the explicit `now` argument. -/

/-- One round of the reflected CRC-32 polynomial 0xEDB88320. -/
def crc32Round (c : Nat) : Nat :=
  if c % 2 = 1 then (c / 2) ^^^ 0xEDB88320 else c / 2

/-- Fold one byte into a CRC-32 state (eight polynomial rounds). -/
def crc32Byte (c b : Nat) : Nat :=
  crc32Round (crc32Round (crc32Round (crc32Round
    (crc32Round (crc32Round (crc32Round (crc32Round (c ^^^ b % 256))))))))

/-- crc32.ChecksumIEEE. -/
def ChecksumIEEE (data : List Nat) : Nat :=
  0xFFFFFFFF ^^^ data.foldl crc32Byte 0xFFFFFFFF

/-- The write cache key triple behind the formatted string. -/
structure WriteKey where
  handle : List Nat
  offset : Nat
  crc : Nat
  deriving DecidableEq, Repr

/-- api.WriteResponse, with the post-write attribute record reduced to
the size reported by the follow-up GetAttr. -/
structure WriteResponse where
  status : Status
  count : Nat
  stability : Nat
  verifier : Nat
  attrSize : Nat
  deriving DecidableEq, Repr

/-- The server state the Write handler touches: the idempotency cache
and the content of the (resolved) backing file. -/
structure SrvState where
  reqCache : List (WriteKey × WriteResponse)
  content : List Nat
  deriving DecidableEq, Repr

/-- getCachedResponse. -/
def getCachedResponse (st : SrvState) (key : WriteKey) :
    Option WriteResponse :=
  st.reqCache.lookup key

/-- server.go Write, from the FBIG size limit on (the earlier guards —
handle length, path resolution, root squash, access, regular file — are
the same on a replay and are embedded for a resolvable regular file):
look the key up in the cache and return a hit unchanged; on a miss
perform the write, emit `uint64(time.Now().UnixNano())` as verifier,
and cache the successful response. -/
def serverWrite (cfg : Config) (st : SrvState) (now : Nat)
    (fileHandle : List Nat) (offset : Nat) (data : List Nat)
    (stability : Nat) : WriteResponse × SrvState :=
  if fileHandle.length < 16 then
    (⟨.ERR_BADHANDLE, 0, stability, 0, 0⟩, st)
  else if data.length > cfg.maxWriteSize then
    (⟨.ERR_FBIG, 0, stability, 0, 0⟩, st)
  else
    let cacheKey : WriteKey := ⟨fileHandle, offset, ChecksumIEEE data⟩
    match getCachedResponse st cacheKey with
    | some cachedResp => (cachedResp, st)
    | none =>
      let (newContent, bytesWritten) := localWrite st.content offset data
      let verifier := now
      let resp : WriteResponse :=
        ⟨.OK, bytesWritten, stability, verifier, newContent.length⟩
      (resp, { reqCache := (cacheKey, resp) :: st.reqCache,
               content := newContent })

/-! ### Server ReadDir handler and the paginator (server.go ReadDir,
local_fs.go ReadDir)

The local paginator drops the first `cookie` entries, truncates to
`count`, and tags each entry with cookie `cookie + index + 1`.  The
server handler computes the batch cap from the request count, never
reads the request's cookie verifier, stamps the reply with a fresh
`uint64(time.Now().UnixNano())` verifier, and sets `eof` iff fewer
entries than the cap came back. -/

/-- A host directory entry: name and the inode os.ReadDir reports
(0 when entry.Info fails). -/
structure HostDirEnt where
  name : Path
  ino : Nat
  deriving DecidableEq, Repr

/-- fs.DirEntry. -/
structure DirEntry where
  name : Path
  fileId : Nat
  cookie : Nat
  deriving DecidableEq, Repr

/-- The name-hash fallback for entries without an inode (uint64
arithmetic). -/
def nameHash (name : Path) : Nat :=
  name.foldl (fun h c => (h * 31 + c.toNat) % 2 ^ 64) 0

/-- local_fs.go ReadDir on the listed host entries: skip to the cookie
(empty result when the cookie is at or past the end), truncate to
`count` when positive, assign cookies `cookie + i + 1`, and return the
next cookie. -/
def localReadDir (entries : List HostDirEnt) (cookie : Nat)
    (count : Nat) : List DirEntry × Nat :=
  if cookie > 0 ∧ ¬ cookie < entries.length then
    ([], entries.length)
  else
    let entries := entries.drop cookie
    let entries := if count > 0 ∧ count < entries.length
      then entries.take count else entries
    let result := entries.mapIdx fun i e =>
      { name := e.name
        fileId := if e.ino = 0 then nameHash e.name else e.ino
        cookie := cookie + i + 1 }
    (result, cookie + result.length)

/-- api.ReadDirResponse. -/
structure ReadDirResponse where
  status : Status
  cookieVerifier : Nat
  entries : List DirEntry
  eof : Bool
  deriving DecidableEq, Repr

/-- server.go ReadDir, from the batch-cap computation on (the earlier
guards — handle validation, path resolution, root squash, access check,
directory check — are embedded for a resolvable, readable directory
whose listing is `entries`).  `reqVerifier` is the cookie verifier the
request carries. -/
def serverReadDir (entries : List HostDirEnt) (cookie : Nat)
    (reqVerifier : Nat) (count : Nat) (now : Nat) : ReadDirResponse :=
  let maxCount := if count = 0 then 1000
    else if count > 10000 then 10000 else count
  let (result, _) := localReadDir entries cookie maxCount
  { status := .OK
    cookieVerifier := now
    entries := result
    eof := result.length < maxCount }

/-! ### Concrete fixtures used by witnesses -/

/-- A one-file host for the round-trip witness: `/tmp/e/a` has inode 5. -/
def c3host : Host where
  statIno := fun q => if q = "/tmp/e/a".data then some 5 else none
  walkOrder := [("/tmp/e/a".data, 5)]

/-- The default-flavoured configuration (1 MiB payload caps, root squash
to nobody/nogroup) used by concrete witnesses. -/
def cfg0 : Config :=
  { maxReadSize := 1048576, maxWriteSize := 1048576,
    enableRootSquash := true, anonUid := 65534, anonGid := 65534 }

/-! ## Theorems -/

/-- Round trip of the 16-byte handle codec: deserialising a serialised
handle whose fields are in uint32/uint64 range recovers the handle. -/
theorem deserialize_serialize (fh : FileHandle)
    (h1 : fh.fileSystemID < 2 ^ 32) (h2 : fh.inode < 2 ^ 64)
    (h3 : fh.generation < 2 ^ 32) :
    DeserializeFileHandle fh.Serialize = some fh := by
  obtain ⟨a, b, c⟩ := fh
  simp only [FileHandle.Serialize, putUint32, putUint64, DeserializeFileHandle,
    beUint32, beUint64, List.cons_append, List.nil_append, List.length_cons,
    List.length_nil, List.take, List.drop, List.foldl] at *
  norm_num
  refine ⟨?_, ?_, ?_⟩ <;> omega

/-- Claim C1 (refuted; the code is at fault).  With export root
`/tmp/e`, the caller path `/../e2` lexically normalises to the sibling
`/tmp/e2`, which escapes the root; the claim requires *invalid-name*,
but `resolvePath` accepts it, because `strings.HasPrefix` does not
require a separator or end-of-string after the root: the resolved
result fails the very separator-or-end condition (`specUnderRoot`) the
specification prescribes. -/
theorem c1_resolvePath_sibling_prefix_escape :
    resolvePath "/tmp/e".data "/../e2".data = Except.ok "/tmp/e2".data ∧
    specUnderRoot "/tmp/e".data "/tmp/e2".data = false :=
  ⟨rfl, rfl⟩

/-- Claim C2 (refuted; the code is at fault).  A handle for inode 5 with
generation 2, presented while the index's current generation for inode 5
is 1 and the fs_id matches, must be rejected as stale by the claim —
but `FileHandleToPath` never consults the generation map and resolves
the handle to the indexed path. -/
theorem c2_generation_mismatch_not_stale :
    DeserializeFileHandle (FileHandle.Serialize ⟨7, 5, 2⟩) = some ⟨7, 5, 2⟩ ∧
    List.lookup 5 ([(5, 1)] : List (Nat × Nat)) = some 1 ∧
    (FileHandleToPath ⟨fun _ => none, []⟩
      { rootPath := "/tmp/e".data, fsID := 7,
        inodeMap := [(5, "/a.txt".data)], generationMap := [(5, 1)] }
      (FileHandle.Serialize ⟨7, 5, 2⟩)).1 = Except.ok "/a.txt".data :=
  ⟨rfl, rfl, rfl⟩

/-- Claim C3: whenever `PathToFileHandle` succeeds on a path `p`
(the server fields being in machine range), `FileHandleToPath` on the
returned bytes, in the state the first call left, returns exactly `p`:
the handle round-trips through the inode index. -/
theorem c3_path_handle_roundtrip (host : Host) (st : LocalState) (p : Path)
    (bytes : List Nat) (st' : LocalState)
    (hfs : st.fsID < 2 ^ 32)
    (hgen : ∀ i g, st.generationMap.lookup i = some g → g < 2 ^ 32)
    (hino : ∀ q i, host.statIno q = some i → i < 2 ^ 64)
    (hcall : PathToFileHandle host st p = (.ok bytes, st')) :
    (FileHandleToPath host st' bytes).1 = .ok p := by
  unfold PathToFileHandle at hcall
  cases hgi : getInode host st p with
  | error e => rw [hgi] at hcall; simp at hcall
  | ok ino =>
    rw [hgi] at hcall
    have hino64 : ino < 2 ^ 64 := by
      unfold getInode at hgi
      split at hgi
      · simp at hgi
      · split at hgi
        · simp at hgi
        · rename_i j hj
          simp only [Except.ok.injEq] at hgi
          exact hgi ▸ hino _ j hj
    cases hlk : st.generationMap.lookup ino with
    | some g =>
      simp only [getGeneration, hlk] at hcall
      rw [Prod.mk.injEq] at hcall
      obtain ⟨hbytes, hst'⟩ := hcall
      simp only [Except.ok.injEq] at hbytes
      subst hbytes
      subst hst'
      have hg32 : g < 2 ^ 32 := hgen ino g hlk
      have hdes := deserialize_serialize ⟨st.fsID, ino, g⟩ hfs hino64 hg32
      simp [FileHandleToPath, hdes, updateInodeMap, lookupPathByInode,
        List.lookup]
    | none =>
      simp only [getGeneration, hlk] at hcall
      rw [Prod.mk.injEq] at hcall
      obtain ⟨hbytes, hst'⟩ := hcall
      simp only [Except.ok.injEq] at hbytes
      subst hbytes
      subst hst'
      have hdes := deserialize_serialize ⟨st.fsID, ino, 1⟩ hfs hino64
        (by norm_num)
      simp [FileHandleToPath, hdes, updateInodeMap, lookupPathByInode,
        List.lookup]

/-- Witness for C3: the round trip evaluated on a one-file export
(`/a` with inode 5 under `/tmp/e`, fs_id 7, initially empty maps). -/
theorem c3_path_handle_roundtrip_witness :
    (FileHandleToPath c3host
        { rootPath := "/tmp/e".data, fsID := 7,
          inodeMap := [(5, "/a".data)], generationMap := [(5, 1)] }
        (FileHandle.Serialize ⟨7, 5, 1⟩)).1 = Except.ok "/a".data :=
  c3_path_handle_roundtrip c3host
    { rootPath := "/tmp/e".data, fsID := 7,
      inodeMap := [], generationMap := [] }
    "/a".data (FileHandle.Serialize ⟨7, 5, 1⟩)
    { rootPath := "/tmp/e".data, fsID := 7,
      inodeMap := [(5, "/a".data)], generationMap := [(5, 1)] }
    (by norm_num)
    (by intro i g h; simp [List.lookup] at h)
    (by intro q i h
        simp only [c3host] at h
        split at h
        · simp only [Option.some.injEq] at h
          omega
        · simp at h)
    rfl

/-- Claim C4: the Read handler returns at most
`min(count, size − offset, MaxReadSize)` bytes; at or past the end it
returns empty data with eof; and eof holds iff the position after the
read is at or past the size. -/
theorem c4_read_bounds (cfg : Config) (content : List Nat)
    (offset count : Nat) :
    (serverRead cfg content offset count).1.length ≤ count ∧
    (serverRead cfg content offset count).1.length ≤ cfg.maxReadSize ∧
    (serverRead cfg content offset count).1.length ≤
      content.length - offset ∧
    (offset ≥ content.length →
      (serverRead cfg content offset count).1 = [] ∧
      (serverRead cfg content offset count).2 = true) ∧
    ((serverRead cfg content offset count).2 = true ↔
      content.length ≤ offset +
        (serverRead cfg content offset count).1.length) := by
  simp only [serverRead, localRead]
  split_ifs with h1 h2 h3 h4 <;>
    simp [List.length_take, List.length_drop, decide_eq_true_eq] <;> omega

/-- Claim C5: a Write replayed with identical handle, offset, data and
stability against the state left by the first call returns the very
same response (so equal byte count and verifier) and leaves the server
state — cache and backing file — untouched. -/
theorem c5_write_replay_idempotent (cfg : Config) (st : SrvState)
    (now1 now2 : Nat) (fh : List Nat) (offset : Nat) (data : List Nat)
    (stability : Nat)
    (hok : (serverWrite cfg st now1 fh offset data stability).1.status =
      .OK) :
    serverWrite cfg (serverWrite cfg st now1 fh offset data stability).2
        now2 fh offset data stability =
      serverWrite cfg st now1 fh offset data stability ∧
    (serverWrite cfg (serverWrite cfg st now1 fh offset data stability).2
        now2 fh offset data stability).2.content =
      (serverWrite cfg st now1 fh offset data stability).2.content := by
  have h : serverWrite cfg
      (serverWrite cfg st now1 fh offset data stability).2
        now2 fh offset data stability =
      serverWrite cfg st now1 fh offset data stability := by
    by_cases h1 : fh.length < 16
    · simp only [serverWrite, if_pos h1]
    · by_cases h2 : data.length > cfg.maxWriteSize
      · simp only [serverWrite, if_neg h1, if_pos h2]
      · cases hc : getCachedResponse st ⟨fh, offset, ChecksumIEEE data⟩ with
        | some c => simp only [serverWrite, if_neg h1, if_neg h2, hc]
        | none =>
          simp only [serverWrite, if_neg h1, if_neg h2, hc]
          simp [getCachedResponse, List.lookup]
  exact ⟨h, by rw [h]⟩

/-- Witness for C5: a concrete replayed write (two bytes of file,
one byte written at offset 0, FILE_SYNC) at clock readings 3 and 9. -/
theorem c5_write_replay_idempotent_witness :
    (serverWrite cfg0 ⟨[], [104, 105]⟩ 3
        (List.replicate 16 0) 0 [97] 2).1.status = .OK ∧
    (serverWrite cfg0
        (serverWrite cfg0 ⟨[], [104, 105]⟩ 3
          (List.replicate 16 0) 0 [97] 2).2 9
        (List.replicate 16 0) 0 [97] 2 =
      serverWrite cfg0 ⟨[], [104, 105]⟩ 3
        (List.replicate 16 0) 0 [97] 2 ∧
    (serverWrite cfg0
        (serverWrite cfg0 ⟨[], [104, 105]⟩ 3
          (List.replicate 16 0) 0 [97] 2).2 9
        (List.replicate 16 0) 0 [97] 2).2.content =
      (serverWrite cfg0 ⟨[], [104, 105]⟩ 3
        (List.replicate 16 0) 0 [97] 2).2.content) :=
  ⟨by decide,
   c5_write_replay_idempotent cfg0 ⟨[], [104, 105]⟩ 3 9
     (List.replicate 16 0) 0 [97] 2 (by decide)⟩

/-- Claim C6 counterexample: two successful, non-cache-hit writes
(the second at a different offset, so a different cache key) performed
at clock readings 1 and 2 return verifiers 1 and 2 — the verifier is
not a server-lifetime constant. -/
theorem c6_verifier_differs_across_writes :
    (serverWrite cfg0 ⟨[], []⟩ 1
        (List.replicate 16 0) 0 [97] 0).1.status = Status.OK ∧
    (serverWrite cfg0
        (serverWrite cfg0 ⟨[], []⟩ 1
          (List.replicate 16 0) 0 [97] 0).2 2
        (List.replicate 16 0) 1 [97] 0).1.status = Status.OK ∧
    (serverWrite cfg0 ⟨[], []⟩ 1
        (List.replicate 16 0) 0 [97] 0).1.verifier ≠
      (serverWrite cfg0
        (serverWrite cfg0 ⟨[], []⟩ 1
          (List.replicate 16 0) 0 [97] 0).2 2
        (List.replicate 16 0) 1 [97] 0).1.verifier := by
  decide

/-- Claim C6 as amended: the verifier of a non-cache-hit Write is
`uint64(time.Now().UnixNano())` — the clock reading taken during that
call — not a boot-time constant; calls at different clock readings
return different verifiers, while a cache-hit replay echoes the stored
one. -/
theorem c6_verifier_is_call_time (cfg : Config) (st : SrvState)
    (now : Nat) (fh : List Nat) (offset : Nat) (data : List Nat)
    (stability : Nat)
    (hlen : ¬ fh.length < 16) (hsize : ¬ data.length > cfg.maxWriteSize)
    (hmiss : getCachedResponse st ⟨fh, offset, ChecksumIEEE data⟩ = none) :
    (serverWrite cfg st now fh offset data stability).1.verifier = now ∧
    (serverWrite cfg st now fh offset data stability).1.status = .OK := by
  simp [serverWrite, if_neg hlen, if_neg hsize, hmiss]

/-- Witness for the amended C6: a concrete cache-miss write at clock
reading 7 returns verifier 7. -/
theorem c6_verifier_is_call_time_witness :
    ¬ (List.replicate 16 0).length < 16 ∧
    ¬ ([97] : List Nat).length > cfg0.maxWriteSize ∧
    getCachedResponse ⟨[], []⟩
      ⟨List.replicate 16 0, 0, ChecksumIEEE [97]⟩ = none ∧
    ((serverWrite cfg0 ⟨[], []⟩ 7
        (List.replicate 16 0) 0 [97] 0).1.verifier = 7 ∧
     (serverWrite cfg0 ⟨[], []⟩ 7
        (List.replicate 16 0) 0 [97] 0).1.status = .OK) :=
  ⟨by decide, by decide, rfl,
   c6_verifier_is_call_time cfg0 ⟨[], []⟩ 7
     (List.replicate 16 0) 0 [97] 0 (by decide) (by decide) rfl⟩

/-- Claim C7 counterexample: a first enumeration of a three-entry
directory at clock 42 issues cookie verifier 42; the resumption with
cookie 2 carries the mismatched verifier 999, yet the server answers
OK — never bad-cookie. -/
theorem c7_mismatched_verifier_not_rejected :
    (serverReadDir [⟨"a".data, 11⟩, ⟨"b".data, 12⟩, ⟨"c".data, 13⟩]
        0 0 2 42).cookieVerifier = 42 ∧
    (999 : Nat) ≠ 42 ∧
    (serverReadDir [⟨"a".data, 11⟩, ⟨"b".data, 12⟩, ⟨"c".data, 13⟩]
        2 999 10 77).status = Status.OK ∧
    (serverReadDir [⟨"a".data, 11⟩, ⟨"b".data, 12⟩, ⟨"c".data, 13⟩]
        2 999 10 77).status ≠ Status.ERR_BAD_COOKIE :=
  ⟨rfl, by decide, rfl, by decide⟩

/-- Claim C7 as amended: the ReadDir handler never reads the request's
cookie verifier — the whole response is independent of it — and a
request that passes the directory guards is answered OK, never
bad-cookie. -/
theorem c7_verifier_ignored (entries : List HostDirEnt)
    (cookie v1 v2 count now : Nat) :
    serverReadDir entries cookie v1 count now =
      serverReadDir entries cookie v2 count now ∧
    (serverReadDir entries cookie v1 count now).status ≠
      .ERR_BAD_COOKIE :=
  ⟨rfl, by simp [serverReadDir]⟩

/-- Claim C8: a ReadDir batch is capped at `min(count, 10000)` — 1000
when `count = 0` — and eof holds iff fewer entries than the cap were
available at the cookie position. -/
theorem c8_readdir_cap_eof (entries : List HostDirEnt)
    (cookie v count now : Nat) :
    (serverReadDir entries cookie v count now).entries.length ≤
      (if count = 0 then 1000 else min count 10000) ∧
    ((serverReadDir entries cookie v count now).eof = true ↔
      entries.length - cookie <
        (if count = 0 then 1000 else min count 10000)) := by
  have hcap : (if count = 0 then (1000 : Nat)
      else if count > 10000 then 10000 else count) =
      (if count = 0 then 1000 else min count 10000) := by
    split_ifs <;> omega
  simp only [serverReadDir, hcap]
  have hlen : ∀ m : Nat, 0 < m →
      ((localReadDir entries cookie m).1).length =
        min m (entries.length - cookie) := by
    intro m hm
    simp only [localReadDir]
    split_ifs with hc1 hc2 <;>
      simp_all [List.length_mapIdx, List.length_take, List.length_drop]
  constructor
  · rw [hlen _ (by split_ifs <;> omega)]
    omega
  · rw [decide_eq_true_eq, hlen _ (by split_ifs <;> omega)]
    omega

/-- Claim C9: with root squash enabled and uid 0, the credentials every
handler hands to its access check carry the anonymous uid and gid and
the unchanged supplementary groups (shown on the GetAttr handler's
access stage). -/
theorem c9_root_squash (cfg : Config) (creds : Credentials)
    (hsq : cfg.enableRootSquash = true) (huid : creds.uid = 0)
    (fileUid fileGid fileMode : Nat) :
    applyRootSquash cfg creds =
      { uid := cfg.anonUid, gid := cfg.anonGid, groups := creds.groups } ∧
    getAttrAccessStage cfg creds fileUid fileGid fileMode =
      accessCheck fileUid fileGid fileMode 4
        { uid := cfg.anonUid, gid := cfg.anonGid,
          groups := creds.groups } := by
  have h : applyRootSquash cfg creds =
      { uid := cfg.anonUid, gid := cfg.anonGid, groups := creds.groups } := by
    simp [applyRootSquash, hsq, huid]
  exact ⟨h, by simp [getAttrAccessStage, h]⟩

/-- Witness for C9: root credentials with supplementary groups `[42]`
against a 0644 file owned by 1000:1000 under the default
configuration. -/
theorem c9_root_squash_witness :
    cfg0.enableRootSquash = true ∧
    (⟨0, 0, [42]⟩ : Credentials).uid = 0 ∧
    (applyRootSquash cfg0 ⟨0, 0, [42]⟩ =
      { uid := cfg0.anonUid, gid := cfg0.anonGid, groups := [42] } ∧
    getAttrAccessStage cfg0 ⟨0, 0, [42]⟩ 1000 1000 420 =
      accessCheck 1000 1000 420 4
        { uid := cfg0.anonUid, gid := cfg0.anonGid, groups := [42] }) :=
  ⟨rfl, rfl, c9_root_squash cfg0 ⟨0, 0, [42]⟩ rfl rfl 1000 1000 420⟩

/-- Claim C10: every attribute record the adapter builds reports all
three protocol times equal to the host modification time (whatever the
host's own access and change times are), BlockSize 512, and Blocks
`(size + 511) / 512`, which is exactly `ceil(size / 512)` — the two
final conjuncts pin the ceiling. -/
theorem c10_attr_times_and_blocks (hs : HostStat) :
    (convertFileInfo hs).accessTime = hs.modTime ∧
    (convertFileInfo hs).modifyTime = hs.modTime ∧
    (convertFileInfo hs).changeTime = hs.modTime ∧
    (convertFileInfo hs).blockSize = 512 ∧
    (convertFileInfo hs).blocks = (hs.size + 511) / 512 ∧
    hs.size ≤ (convertFileInfo hs).blocks * 512 ∧
    (convertFileInfo hs).blocks * 512 < hs.size + 512 := by
  refine ⟨rfl, rfl, rfl, rfl, rfl, ?_, ?_⟩ <;> simp [convertFileInfo] <;>
    omega

end NfsSpec
